import Mathlib

/-!
# k8s-loadtester: metrics collector, load driver and command

A shallow embedding of `pkg/metrics/metrics.go`, `pkg/loadtester/loadtester.go`
and `cmd/root.go`, followed by the properties established about them.

Conventions of the embedding.

* `time.Duration` is an `Int` counting nanoseconds; Go `int` is taken as 64-bit.
* A finite `float64` is the rational it denotes. Every conversion
  `float64(n)` and every floating-point `+`, `*` and `/` of the code is the
  exact result rounded to the nearest `float64`, ties to even
  (`roundFloat64`). Infinities and NaN are not represented: every division of
  the code is under a guard that makes its divisor positive, or divides by the
  constant `1e9`, and no `int64` input takes a result near `2 ^ 1024`.
* The two request counters of the collector grow by one per record call, so
  they reach `2 ^ 63` only after `2 ^ 63` calls; they are kept as unbounded
  integers. The two latency totals add a caller-chosen `int64` at each call and
  are stored with `int64` wraparound.
* The counter of a `sync.WaitGroup` is an `int32`: `Add` stores the sum
  modulo `2 ^ 32` and panics when the stored value is negative.
* Goroutines are interleaved at the granularity of one loop iteration: the
  collector is the only state the workers share and every access to it is one
  critical section of its mutex.
-/

namespace K8sLoadtester

/-! ## `time.Duration` -/

/-- Value held by an `int64` after the arithmetic result `x` is stored in it
(wraparound modulo `2 ^ 64`). -/
def wrapInt64 (x : Int) : Int := (x + 2 ^ 63) % 2 ^ 64 - 2 ^ 63

/-- Go `time.Duration`, a signed count of nanoseconds. -/
abbrev Duration := Int

/-- Go `time.Second`. -/
def Second : Duration := 1000000000

/-- Go `Duration.Milliseconds`: `int64(d) / 1e6`, integer division truncating
toward zero. -/
def Milliseconds (d : Duration) : Int := Int.tdiv d 1000000

/-! ## `float64` -/

/-- Nearest integer to a rational, a tie going to the even neighbour. -/
def roundHalfEven (r : ℚ) : Int :=
  if r - ⌊r⌋ < 1 / 2 then ⌊r⌋
  else if 1 / 2 < r - ⌊r⌋ then ⌊r⌋ + 1
  else if ⌊r⌋ % 2 = 0 then ⌊r⌋ else ⌊r⌋ + 1

/-- Exponent of the spacing of the `float64` values around `x`: 53 significant
bits above `2 ^ (-1022)`, the fixed spacing `2 ^ (-1074)` of the subnormal
values below. -/
def ulpExponent (x : ℚ) : Int := max (Int.log 2 |x| - 52) (-1074)

/-- The `float64` nearest to `x`, ties to even: `x` rounded to a multiple of the
spacing at its magnitude. Overflow to an infinity, which starts just below
`2 ^ 1024`, is not represented. -/
def roundFloat64 (x : ℚ) : ℚ :=
  (roundHalfEven (x / 2 ^ ulpExponent x) : ℚ) * 2 ^ ulpExponent x

/-- The conversion `float64(n)` of an integer. -/
def f64OfInt (n : Int) : ℚ := roundFloat64 (n : ℚ)

/-- The `float64` sum `x + y`. -/
def f64Add (x y : ℚ) : ℚ := roundFloat64 (x + y)

/-- The `float64` product `x * y`. -/
def f64Mul (x y : ℚ) : ℚ := roundFloat64 (x * y)

/-- The `float64` quotient `x / y`, for a divisor that is not zero. -/
def f64Div (x y : ℚ) : ℚ := roundFloat64 (x / y)

/-- Go `Duration.Seconds`: `sec := d / Second; nsec := d % Second;
float64(sec) + float64(nsec)/1e9`, with truncating division and remainder; the
constant `1e9` is a `float64` exactly. -/
def Seconds (d : Duration) : ℚ :=
  f64Add (f64OfInt (Int.tdiv d Second)) (f64Div (f64OfInt (Int.tmod d Second)) 1000000000)

/-! ## `pkg/metrics` -/

/-- Summary of `metrics.go`: the calculated metrics. -/
structure Summary where
  TotalRequests : Int
  SuccessCount : Int
  ErrorCount : Int
  TotalDuration : Duration
  Throughput : ℚ
  AvgLatencySuccessMs : ℚ
  ErrorRatePercent : ℚ
  deriving DecidableEq

/-- Collector of `metrics.go`, without its mutex: every method below is one
critical section. The counters are unbounded integers (they grow by one per
call); the latency totals are `int64` values, stored through `wrapInt64`. -/
structure Collector where
  successCount : Int
  errorCount : Int
  totalLatencySuccess : Duration
  totalLatencyError : Duration
  deriving DecidableEq

/-- NewCollector returns `&Collector{}`: every field has its zero value. -/
def NewCollector : Collector :=
  { successCount := 0, errorCount := 0, totalLatencySuccess := 0, totalLatencyError := 0 }

/-- RecordSuccess: `c.successCount++; c.totalLatencySuccess += latency`. -/
def Collector.RecordSuccess (c : Collector) (latency : Duration) : Collector :=
  { c with
    successCount := c.successCount + 1
    totalLatencySuccess := wrapInt64 (c.totalLatencySuccess + latency) }

/-- RecordFailure: `c.errorCount++; c.totalLatencyError += latency`. -/
def Collector.RecordFailure (c : Collector) (latency : Duration) : Collector :=
  { c with
    errorCount := c.errorCount + 1
    totalLatencyError := wrapInt64 (c.totalLatencyError + latency) }

/-- TotalRequests: `c.successCount + c.errorCount`. -/
def Collector.TotalRequests (c : Collector) : Int :=
  c.successCount + c.errorCount

/-- Summarize of `metrics.go`. Each `var x float64` starts at zero and is
assigned only under its guard; the constant `100.0` is a `float64` exactly. -/
def Collector.Summarize (c : Collector) (totalDuration : Duration) : Summary :=
  let totalRequests := c.successCount + c.errorCount
  let throughput : ℚ :=
    if Seconds totalDuration > 0 then
      f64Div (f64OfInt totalRequests) (Seconds totalDuration)
    else 0
  let avgLatencySuccessMs : ℚ :=
    if c.successCount > 0 then
      f64Div (f64OfInt (Milliseconds c.totalLatencySuccess)) (f64OfInt c.successCount)
    else 0
  let errorRatePercent : ℚ :=
    if totalRequests > 0 then
      f64Mul (f64Div (f64OfInt c.errorCount) (f64OfInt totalRequests)) 100
    else 0
  { TotalRequests := totalRequests
    SuccessCount := c.successCount
    ErrorCount := c.errorCount
    TotalDuration := totalDuration
    Throughput := throughput
    AvgLatencySuccessMs := avgLatencySuccessMs
    ErrorRatePercent := errorRatePercent }

/-- One record operation called on a collector. -/
inductive RecordCall where
  | success (latency : Duration)
  | failure (latency : Duration)
  deriving DecidableEq

/-- Latency argument of a record call. -/
def RecordCall.latency : RecordCall → Duration
  | .success l => l
  | .failure l => l

/-- Whether the call is a `RecordSuccess`. -/
def RecordCall.isSuccess : RecordCall → Bool
  | .success _ => true
  | .failure _ => false

/-- Perform one record call on the collector. -/
def Collector.record (c : Collector) : RecordCall → Collector
  | .success l => c.RecordSuccess l
  | .failure l => c.RecordFailure l

/-- Perform a sequence of record calls, first call first. -/
def Collector.recordAll (c : Collector) : List RecordCall → Collector
  | [] => c
  | call :: rest => (c.record call).recordAll rest

/-- Number of `RecordSuccess` calls in a sequence. -/
def successCalls (calls : List RecordCall) : Nat :=
  calls.countP RecordCall.isSuccess

/-- Number of `RecordFailure` calls in a sequence. -/
def failureCalls (calls : List RecordCall) : Nat :=
  calls.countP (fun call => !call.isSuccess)

/-- Sum, in nanoseconds, of the latencies passed to `RecordSuccess`. -/
def successLatencySum : List RecordCall → Int
  | [] => 0
  | .success l :: rest => l + successLatencySum rest
  | .failure _ :: rest => successLatencySum rest

/-- One success of 1.5 ms: the latency is non-negative and is `3 / 2` when
expressed in milliseconds. -/
def subMillisecondCalls : List RecordCall :=
  [RecordCall.success 1500000]

/-- Two successes of `2 ^ 62` nanoseconds each: the latencies are non-negative
and their sum is `2 ^ 63`. -/
def overflowingCalls : List RecordCall :=
  [RecordCall.success (2 ^ 62), RecordCall.success (2 ^ 62)]

/-! ## `pkg/loadtester` -/

/-- Options of `loadtester.go`. The `Client` field is not kept: what the client
answers to each request is supplied by the environment, see `Iteration`. -/
structure Options where
  URL : String
  Concurrency : Int
  Duration : Duration

/-- What the environment decides in one pass of a worker through its `for` loop:
whether the `select` finds `testCtx.Done()` ready and, for the request issued
when it does not, the error of `client.Do`, the value of `resp.StatusCode()` and
the latency `time.Since(startTime)`. -/
structure Iteration where
  fired : Bool
  err : Bool
  statusCode : Int
  latency : Duration
  deriving DecidableEq

/-- The collector shared by the workers, with the log of the record calls made
on it so far, oldest first. -/
structure Shared where
  mc : Collector
  calls : List RecordCall
  deriving DecidableEq

/-- Call of `mc.RecordSuccess(latency)`. -/
def Shared.RecordSuccess (s : Shared) (latency : Duration) : Shared :=
  { mc := s.mc.RecordSuccess latency, calls := s.calls ++ [RecordCall.success latency] }

/-- Call of `mc.RecordFailure(latency)`. -/
def Shared.RecordFailure (s : Shared) (latency : Duration) : Shared :=
  { mc := s.mc.RecordFailure latency, calls := s.calls ++ [RecordCall.failure latency] }

/-- One worker goroutine: whether it has returned, how many times it has called
`client.Do`, and the outcomes of its deadline checks so far, oldest first. -/
structure Worker where
  returned : Bool
  requests : Nat
  checks : List Bool
  deriving DecidableEq

/-- A goroutine that has just been launched. -/
def Worker.launched : Worker :=
  { returned := false, requests := 0, checks := [] }

/-- The part of the loop body after `latency := time.Since(startTime)`:
`if err != nil` records a failure, otherwise the status code decides. -/
def recordOutcome (it : Iteration) (s : Shared) : Shared :=
  if it.err then
    s.RecordFailure it.latency
  else
    if it.statusCode ≥ 200 ∧ it.statusCode < 400 then
      s.RecordSuccess it.latency
    else
      s.RecordFailure it.latency

/-- One pass through the `for` loop of a worker: the `select` on
`testCtx.Done()` returns from the goroutine when the signal has fired;
otherwise the request is issued and its outcome recorded. A goroutine that has
returned does nothing. -/
def workerIteration (it : Iteration) (w : Worker) (s : Shared) : Worker × Shared :=
  if w.returned then
    (w, s)
  else if it.fired then
    ({ w with returned := true, checks := w.checks ++ [true] }, s)
  else
    ({ w with requests := w.requests + 1, checks := w.checks ++ [false] }, recordOutcome it s)

/-- The `for` loop of one worker against the successive decisions of the
environment. -/
def workerLoop : List Iteration → Worker → Shared → Worker × Shared
  | [], w, s => (w, s)
  | it :: rest, w, s => workerLoop rest (workerIteration it w s).1 (workerIteration it w s).2

/-- The passes through the loop a worker makes against a list of decisions:
those up to and including the first one whose check finds the signal fired. -/
def iterationsRun : List Iteration → List Iteration
  | [] => []
  | it :: rest => if it.fired then [it] else it :: iterationsRun rest

/-- What is written to standard output, by `RunLoadTest` and by the command:
the three validation errors and the usage text, the block of lines printed
before the test starts, the invalid-URL error of `RunLoadTest`, a progress line
of the reporter, the two lines that close the run, the final summary
(`summary.String()`), and the note that the run was cancelled. -/
inductive Output where
  | errEmptyURL
  | usage
  | errConcurrency
  | errDuration
  | starting (url : String) (concurrency : Int) (duration : Duration)
  | invalidURL (url : String)
  | progress (elapsed : Duration) (summary : Summary)
  | finished
  | summary (summary : Summary)
  | cancelled
  deriving DecidableEq

/-- Value held by an `int32` after the arithmetic result `x` is stored in it
(wraparound modulo `2 ^ 32`). -/
def wrapInt32 (x : Int) : Int := (x + 2 ^ 31) % 2 ^ 32 - 2 ^ 31

/-- The `Add` method of `sync.WaitGroup` on its counter: the counter is an
`int32`, the high half of a 64-bit state to which `uint64(delta) << 32` is
added, and `Add` panics when the new counter is negative. The result is the new
counter, or `none` for the panic. -/
def wgAdd (counter delta : Int) : Option Int :=
  if wrapInt32 (counter + delta) < 0 then none else some (wrapInt32 (counter + delta))

/-- The loop `for i := 0; i < n; i++ { wg.Done() }`, each `Done` being
`Add(-1)`. -/
def wgDoneTimes : Nat → Int → Option Int
  | 0, counter => some counter
  | n + 1, counter =>
    match wgAdd counter (-1) with
    | none => none
    | some next => wgDoneTimes n next

/-- State of a call of `RunLoadTest`: the shared collector, the worker
goroutines launched, the lines printed, and the counter of the wait group. -/
structure LoadTest where
  shared : Shared
  workers : List Worker
  output : List Output
  wg : Int
  deriving DecidableEq

/-- One scheduling step: worker number `e.1` makes its next pass through the
loop, against the decision `e.2`; when the goroutine returns in this pass its
deferred `wg.Done()` runs. A number that names no worker does nothing. The
result is `none` when `wg.Done()` panics. -/
def LoadTest.step (t : LoadTest) (e : Nat × Iteration) : Option LoadTest :=
  match t.workers[e.1]? with
  | none => some t
  | some w =>
    if w.returned = false ∧ (workerIteration e.2 w t.shared).1.returned = true then
      match wgAdd t.wg (-1) with
      | none => none
      | some next =>
        some
          { t with
            workers := t.workers.set e.1 (workerIteration e.2 w t.shared).1
            shared := (workerIteration e.2 w t.shared).2
            wg := next }
    else
      some
        { t with
          workers := t.workers.set e.1 (workerIteration e.2 w t.shared).1
          shared := (workerIteration e.2 w t.shared).2 }

/-- How a call of `RunLoadTest` stands at the end of a schedule: it has
panicked (the state is the one before the operation that panics), it is still
blocked in `wg.Wait`, or it has returned. -/
inductive RunResult where
  | panicked (t : LoadTest)
  | waiting (t : LoadTest)
  | returned (t : LoadTest)
  deriving DecidableEq

/-- The call `wg.Wait()` against a schedule of worker passes, first step first:
it returns as soon as the counter is zero. -/
def LoadTest.run (t : LoadTest) : List (Nat × Iteration) → RunResult
  | [] => if t.wg = 0 then RunResult.returned t else RunResult.waiting t
  | e :: rest =>
    if t.wg = 0 then RunResult.returned t
    else
      match t.step e with
      | none => RunResult.panicked t
      | some next => next.run rest

/-- RunLoadTest of `loadtester.go`. `parseFails url` tells whether
`uri.Parse(nil, []byte(url))` of fasthttp returns an error; `schedule` is the
interleaving of the workers. First `wg.Add(opts.Concurrency)`, which may panic.
An invalid URL prints the error, calls `wg.Done()` `Concurrency` times and
returns before any goroutine is launched; otherwise `Concurrency` goroutines
are launched and `wg.Wait()` is called. -/
def RunLoadTest (parseFails : String → Bool) (opts : Options)
    (schedule : List (Nat × Iteration)) (mc : Collector) : RunResult :=
  match wgAdd 0 opts.Concurrency with
  | none =>
    RunResult.panicked
      { shared := { mc := mc, calls := [] }, workers := [], output := [], wg := 0 }
  | some counter =>
    if parseFails opts.URL then
      match wgDoneTimes opts.Concurrency.toNat counter with
      | none =>
        RunResult.panicked
          { shared := { mc := mc, calls := [] }, workers := [],
            output := [Output.invalidURL opts.URL], wg := counter }
      | some rest =>
        RunResult.returned
          { shared := { mc := mc, calls := [] }, workers := [],
            output := [Output.invalidURL opts.URL], wg := rest }
    else
      LoadTest.run
        { shared := { mc := mc, calls := [] }
          workers := List.replicate opts.Concurrency.toNat Worker.launched
          output := []
          wg := counter } schedule

/-- The collector as a call of `RunLoadTest` leaves it at the end of a schedule. -/
def RunResult.collector : RunResult → Collector
  | RunResult.panicked t => t.shared.mc
  | RunResult.waiting t => t.shared.mc
  | RunResult.returned t => t.shared.mc

/-! ## `cmd` -/

/-- The three flag variables of `root.go`. -/
structure Flags where
  targetURL : String
  concurrency : Int
  duration : Duration

/-- What the environment decides during one run of the command: the URI parser,
the interleaving of the workers, the ticks of the reporter (each with the number
of scheduling steps made before it and the elapsed time it reads), the elapsed
time read after `RunLoadTest`, and whether `ctx.Err()` is `context.Canceled`
at the end. -/
structure Env where
  parseFails : String → Bool
  schedule : List (Nat × Iteration)
  ticks : List (Nat × Duration)
  actualDuration : Duration
  canceled : Bool

/-- How the process stands at the end of the run: exited with a code, panicked,
or still waiting for workers. A Go process that panics exits with code 2. -/
inductive Exit where
  | code (n : Nat)
  | panicked
  | waiting
  deriving DecidableEq

/-- Observable outcome of the command. -/
structure Outcome where
  output : List Output
  exit : Exit
  reporterStarted : Bool
  workersLaunched : Nat
  calls : List RecordCall
  deriving DecidableEq

/-- The `Run` function of `rootCmd` in `root.go`, followed by the return of
`Execute` and `main` (exit code 0) when `Run` returns. -/
def Run (flags : Flags) (env : Env) : Outcome :=
  if flags.targetURL = "" then
    { output := [Output.errEmptyURL, Output.usage], exit := Exit.code 1,
      reporterStarted := false, workersLaunched := 0, calls := [] }
  else if flags.concurrency ≤ 0 then
    { output := [Output.errConcurrency], exit := Exit.code 1,
      reporterStarted := false, workersLaunched := 0, calls := [] }
  else if flags.duration ≤ 0 then
    { output := [Output.errDuration], exit := Exit.code 1,
      reporterStarted := false, workersLaunched := 0, calls := [] }
  else
    let banner := [Output.starting flags.targetURL flags.concurrency flags.duration]
    let mc := NewCollector
    let opts : Options :=
      { URL := flags.targetURL, Concurrency := flags.concurrency, Duration := flags.duration }
    let progress := env.ticks.map fun tick =>
      Output.progress tick.2
        ((RunLoadTest env.parseFails opts (env.schedule.take tick.1) mc).collector.Summarize
          tick.2)
    match RunLoadTest env.parseFails opts env.schedule mc with
    | RunResult.panicked t =>
      { output := banner ++ t.output ++ progress, exit := Exit.panicked,
        reporterStarted := true, workersLaunched := t.workers.length, calls := t.shared.calls }
    | RunResult.waiting t =>
      { output := banner ++ t.output ++ progress, exit := Exit.waiting,
        reporterStarted := true, workersLaunched := t.workers.length, calls := t.shared.calls }
    | RunResult.returned t =>
      { output := banner ++ t.output ++ progress
          ++ [Output.finished, Output.summary (t.shared.mc.Summarize env.actualDuration)]
          ++ (if env.canceled then [Output.cancelled] else [])
        exit := Exit.code 0
        reporterStarted := true, workersLaunched := t.workers.length, calls := t.shared.calls }

/-- Whether a line of output shows metrics: a progress line of the reporter or
the final summary. -/
def Output.isMetrics : Output → Bool
  | Output.progress _ _ => true
  | Output.summary _ => true
  | _ => false

/-- Whether a line of output reports an error. -/
def Output.isError : Output → Bool
  | Output.errEmptyURL => true
  | Output.errConcurrency => true
  | Output.errDuration => true
  | Output.invalidURL _ => true
  | _ => false

/-- Options with a URL whose IPv6 host literal is not closed, which the URI
parser rejects, and `2 ^ 31` workers asked for. -/
def hugeOptions : Options :=
  { URL := "http://[::1", Concurrency := 2147483648, Duration := 50000000 }

/-- A URI parser that rejects the URL with the unclosed IPv6 host literal. -/
def rejectsUnclosedHost (url : String) : Bool := url == "http://[::1"

/-- A run with a URL whose IPv6 host literal is not closed, which the URI parser
rejects. -/
def malformedFlags : Flags :=
  { targetURL := "http://[::1", concurrency := 1, duration := 50000000 }

/-- An environment whose URI parser rejects the URL of `malformedFlags`, with no
worker step and no reporter tick. -/
def malformedEnv : Env :=
  { parseFails := rejectsUnclosedHost
    schedule := []
    ticks := []
    actualDuration := 1000000
    canceled := false }

/-! ## Arithmetic of the embedding -/

theorem wrapInt64_of_fits (x : Int) (hlo : -2 ^ 63 ≤ x) (hhi : x < 2 ^ 63) :
    wrapInt64 x = x := by
  unfold wrapInt64
  rw [Int.emod_eq_of_lt (by omega) (by omega)]
  omega

theorem wrapInt64_add_wrapInt64 (a b : Int) :
    wrapInt64 (wrapInt64 a + b) = wrapInt64 (a + b) := by
  unfold wrapInt64
  omega

theorem floor_le_roundHalfEven (r : ℚ) : ⌊r⌋ ≤ roundHalfEven r := by
  unfold roundHalfEven
  split_ifs <;> omega

theorem roundHalfEven_le_floor_succ (r : ℚ) : roundHalfEven r ≤ ⌊r⌋ + 1 := by
  unfold roundHalfEven
  split_ifs <;> omega

theorem roundHalfEven_intCast (n : Int) : roundHalfEven (n : ℚ) = n := by
  simp [roundHalfEven]

theorem roundHalfEven_nonneg (r : ℚ) (h : 0 ≤ r) : 0 ≤ roundHalfEven r :=
  le_trans (Int.floor_nonneg.mpr h) (floor_le_roundHalfEven r)

theorem roundHalfEven_nonpos (r : ℚ) (h : r ≤ 0) : roundHalfEven r ≤ 0 := by
  rcases eq_or_lt_of_le h with h0 | hneg
  · subst h0
    simp [roundHalfEven]
  · have hfl : ⌊r⌋ < 0 := Int.floor_lt.mpr (by exact_mod_cast hneg)
    have := roundHalfEven_le_floor_succ r
    omega

theorem ulp_pos (x : ℚ) : (0 : ℚ) < 2 ^ ulpExponent x := by positivity

theorem roundFloat64_zero : roundFloat64 0 = 0 := by
  simp [roundFloat64, roundHalfEven]

theorem roundFloat64_nonneg (x : ℚ) (h : 0 ≤ x) : 0 ≤ roundFloat64 x := by
  unfold roundFloat64
  have hq : (0 : ℚ) ≤ x / 2 ^ ulpExponent x := div_nonneg h (le_of_lt (ulp_pos x))
  have hr : (0 : ℚ) ≤ (roundHalfEven (x / 2 ^ ulpExponent x) : ℚ) := by
    exact_mod_cast roundHalfEven_nonneg _ hq
  exact mul_nonneg hr (le_of_lt (ulp_pos x))

theorem roundFloat64_nonpos (x : ℚ) (h : x ≤ 0) : roundFloat64 x ≤ 0 := by
  unfold roundFloat64
  have hq : x / 2 ^ ulpExponent x ≤ 0 := div_nonpos_of_nonpos_of_nonneg h (le_of_lt (ulp_pos x))
  have hr : (roundHalfEven (x / 2 ^ ulpExponent x) : ℚ) ≤ 0 := by
    exact_mod_cast roundHalfEven_nonpos _ hq
  exact mul_nonpos_of_nonpos_of_nonneg hr (le_of_lt (ulp_pos x))

/-- Rounding does not go below a power of two that the argument reaches. -/
theorem two_zpow_le_roundFloat64 (x : ℚ) (k : Int) (hk : -1074 ≤ k)
    (hx : (2 : ℚ) ^ k ≤ x) : (2 : ℚ) ^ k ≤ roundFloat64 x := by
  have hxpos : (0 : ℚ) < x := lt_of_lt_of_le (by positivity) hx
  have habs : |x| = x := abs_of_pos hxpos
  have hlog : (2 : ℚ) ^ Int.log 2 x ≤ x := by
    have := Int.zpow_log_le_self (b := 2) (r := x) (by norm_num) hxpos
    simpa using this
  -- the spacing at `x` does not exceed `x`
  have ht : (2 : ℚ) ^ ulpExponent x ≤ x := by
    unfold ulpExponent
    rw [habs]
    rcases max_cases (Int.log 2 x - 52) (-1074) with ⟨h, _⟩ | ⟨h, _⟩
    · rw [h]
      refine le_trans ?_ hlog
      exact zpow_le_zpow_right₀ (by norm_num) (by omega)
    · rw [h]
      refine le_trans ?_ hx
      exact zpow_le_zpow_right₀ (by norm_num) hk
  -- `j` is an exponent between the spacing and `x`, at least `k`
  obtain ⟨j, hjk, hjt, hjx⟩ : ∃ j : Int, k ≤ j ∧ ulpExponent x ≤ j ∧ (2 : ℚ) ^ j ≤ x := by
    rcases le_total k (ulpExponent x) with h | h
    · exact ⟨ulpExponent x, h, le_refl _, ht⟩
    · exact ⟨k, le_refl _, h, hx⟩
  obtain ⟨n, hn⟩ : ∃ n : Nat, j - ulpExponent x = n := ⟨(j - ulpExponent x).toNat, by omega⟩
  have hsplit : (2 : ℚ) ^ j = ((2 ^ n : Int) : ℚ) * 2 ^ ulpExponent x := by
    have : j = (n : Int) + ulpExponent x := by omega
    rw [this, zpow_add₀ (by norm_num : (2 : ℚ) ≠ 0)]
    simp
  have hquot : (((2 ^ n : Int)) : ℚ) ≤ x / 2 ^ ulpExponent x := by
    rw [le_div_iff₀ (ulp_pos x), ← hsplit]
    exact hjx
  have hfloor : (2 ^ n : Int) ≤ ⌊x / 2 ^ ulpExponent x⌋ := Int.le_floor.mpr hquot
  have hround : (2 ^ n : Int) ≤ roundHalfEven (x / 2 ^ ulpExponent x) :=
    le_trans hfloor (floor_le_roundHalfEven _)
  have hroundQ : (((2 ^ n : Int)) : ℚ) ≤ (roundHalfEven (x / 2 ^ ulpExponent x) : ℚ) := by
    exact_mod_cast hround
  calc (2 : ℚ) ^ k ≤ 2 ^ j := zpow_le_zpow_right₀ (by norm_num) hjk
    _ = ((2 ^ n : Int) : ℚ) * 2 ^ ulpExponent x := hsplit
    _ ≤ (roundHalfEven (x / 2 ^ ulpExponent x) : ℚ) * 2 ^ ulpExponent x :=
        mul_le_mul_of_nonneg_right hroundQ (le_of_lt (ulp_pos x))

theorem one_le_roundFloat64 (x : ℚ) (hx : 1 ≤ x) : 1 ≤ roundFloat64 x := by
  have := two_zpow_le_roundFloat64 x 0 (by norm_num) (by simpa using hx)
  simpa using this

/-- A value that is a whole multiple of the spacing at its magnitude is a
`float64`. -/
theorem roundFloat64_of_multiple (x : ℚ) (m : Int)
    (h : x = (m : ℚ) * 2 ^ ulpExponent x) : roundFloat64 x = x := by
  unfold roundFloat64
  have hq : x / 2 ^ ulpExponent x = (m : ℚ) := by
    rw [div_eq_iff (ne_of_gt (ulp_pos x))]
    exact h
  rw [hq, roundHalfEven_intCast]
  exact h.symm

/-- An integer below `2 ^ 53` in magnitude is a `float64`. -/
theorem roundFloat64_intCast (n : Int) (h : |n| < 2 ^ 53) : roundFloat64 (n : ℚ) = n := by
  rcases eq_or_ne n 0 with h0 | hne
  · subst h0
    simpa using roundFloat64_zero
  · have hpos : (0 : ℚ) < |(n : ℚ)| := abs_pos.mpr (by exact_mod_cast hne)
    have hlt : |(n : ℚ)| < (2 : ℚ) ^ (53 : Int) := by
      rw [show (2 : ℚ) ^ (53 : Int) = ((2 ^ 53 : Int) : ℚ) by norm_num]
      exact_mod_cast h
    have hlog : Int.log 2 |(n : ℚ)| < 53 := by
      have := (Int.lt_zpow_iff_log_lt (b := 2) (by norm_num) hpos (x := 53)).mp
        (by simpa using hlt)
      exact this
    have hone : (1 : ℚ) ≤ |(n : ℚ)| := by
      have : (1 : Int) ≤ |n| := Int.one_le_abs hne
      exact_mod_cast this
    have hlog0 : 0 ≤ Int.log 2 |(n : ℚ)| := by
      have := (Int.zpow_le_iff_le_log (b := 2) (by norm_num) hpos (x := 0)).mp
        (by simpa using hone)
      exact this
    have hexp : ulpExponent (n : ℚ) = Int.log 2 |(n : ℚ)| - 52 := by
      unfold ulpExponent
      exact max_eq_left (by omega)
    obtain ⟨p, hp⟩ : ∃ p : Nat, -ulpExponent (n : ℚ) = p :=
      ⟨(-ulpExponent (n : ℚ)).toNat, by omega⟩
    apply roundFloat64_of_multiple (n : ℚ) (n * 2 ^ p)
    have he : ulpExponent (n : ℚ) = -(p : Int) := by omega
    rw [he]
    push_cast
    rw [mul_assoc, zpow_neg, zpow_natCast]
    field_simp

theorem log_two_eq (x : ℚ) (e : Int) (hx : 0 < x) (hlo : (2 : ℚ) ^ e ≤ x)
    (hhi : x < (2 : ℚ) ^ (e + 1)) : Int.log 2 x = e := by
  have h1 : e ≤ Int.log 2 x :=
    (Int.zpow_le_iff_le_log (b := 2) (by norm_num) hx).mp (by simpa using hlo)
  have h2 : Int.log 2 x < e + 1 :=
    (Int.lt_zpow_iff_log_lt (b := 2) (by norm_num) hx).mp (by simpa using hhi)
  omega

theorem roundHalfEven_of_floor (r : ℚ) (n : Int) (hlo : (n : ℚ) ≤ r) (hhi : r < (n : ℚ) + 1 / 2) :
    roundHalfEven r = n := by
  have hfl : ⌊r⌋ = n := by
    rw [Int.floor_eq_iff]
    constructor
    · exact hlo
    · linarith
  unfold roundHalfEven
  rw [hfl, if_pos (by linarith)]

theorem roundHalfEven_of_ceil (r : ℚ) (n : Int) (hlo : (n : ℚ) - 1 / 2 < r) (hhi : r ≤ (n : ℚ)) :
    roundHalfEven r = n := by
  rcases eq_or_lt_of_le hhi with h | h
  · rw [h]; exact roundHalfEven_intCast n
  · have hfl : ⌊r⌋ = n - 1 := by
      rw [Int.floor_eq_iff]
      push_cast
      constructor <;> linarith
    unfold roundHalfEven
    rw [hfl]
    push_cast
    rw [if_neg (by linarith), if_pos (by linarith)]
    ring

/-- The rounding agrees with IEEE 754 binary64 on three quotients that are not
`float64` values: 3/7, 4/3 and 1/10. -/
theorem roundFloat64_examples :
    roundFloat64 (3 / 7) = 7720456504063707 / 2 ^ 54
      ∧ roundFloat64 (4 / 3) = 6004799503160661 / 2 ^ 52
      ∧ roundFloat64 (1 / 10) = 3602879701896397 / 2 ^ 55 := by
  have e1 : ulpExponent (3 / 7) = -54 := by
    unfold ulpExponent
    rw [abs_of_pos (by norm_num), log_two_eq (3 / 7) (-2) (by norm_num) (by norm_num) (by norm_num)]
    decide
  have e2 : ulpExponent (4 / 3) = -52 := by
    unfold ulpExponent
    rw [abs_of_pos (by norm_num), log_two_eq (4 / 3) 0 (by norm_num) (by norm_num) (by norm_num)]
    decide
  have e3 : ulpExponent (1 / 10) = -56 := by
    unfold ulpExponent
    rw [abs_of_pos (by norm_num), log_two_eq (1 / 10) (-4) (by norm_num) (by norm_num)
      (by norm_num)]
    decide
  refine ⟨?_, ?_, ?_⟩
  · unfold roundFloat64
    rw [e1, roundHalfEven_of_floor _ 7720456504063707 (by norm_num) (by norm_num)]
    norm_num
  · unfold roundFloat64
    rw [e2, roundHalfEven_of_floor _ 6004799503160661 (by norm_num) (by norm_num)]
    norm_num
  · unfold roundFloat64
    rw [e3, roundHalfEven_of_ceil _ 7205759403792794 (by norm_num) (by norm_num)]
    norm_num

/-! ## `Duration.Seconds` -/

theorem tdiv_tmod_second_of_pos (d : Duration) (h : 0 < d) :
    0 ≤ Int.tdiv d Second ∧ 0 ≤ Int.tmod d Second
      ∧ (1 ≤ Int.tdiv d Second ∨ (Int.tdiv d Second = 0 ∧ 1 ≤ Int.tmod d Second)) := by
  change 0 ≤ Int.tdiv d (1000000000 : Int) ∧ 0 ≤ Int.tmod d (1000000000 : Int)
    ∧ (1 ≤ Int.tdiv d (1000000000 : Int)
      ∨ (Int.tdiv d (1000000000 : Int) = 0 ∧ 1 ≤ Int.tmod d (1000000000 : Int)))
  have hd : (0 : Int) < d := h
  have h1 : 0 ≤ Int.tdiv d 1000000000 := Int.tdiv_nonneg (le_of_lt hd) (by decide)
  have h2 : 0 ≤ Int.tmod d 1000000000 := Int.tmod_nonneg _ (le_of_lt hd)
  have h3 : Int.tmod d 1000000000 = d - 1000000000 * Int.tdiv d 1000000000 :=
    Int.tmod_def d 1000000000
  refine ⟨h1, h2, ?_⟩
  generalize Int.tdiv d 1000000000 = q at h1 h3 ⊢
  generalize Int.tmod d 1000000000 = r at h2 h3 ⊢
  omega

theorem tdiv_tmod_second_of_nonpos (d : Duration) (h : d ≤ 0) :
    Int.tdiv d Second ≤ 0 ∧ Int.tmod d Second ≤ 0 := by
  change Int.tdiv d (1000000000 : Int) ≤ 0 ∧ Int.tmod d (1000000000 : Int) ≤ 0
  have hd0 : d ≤ (0 : Int) := h
  have hd : (0 : Int) ≤ -d := Int.neg_nonneg_of_nonpos hd0
  have h1 : 0 ≤ Int.tdiv (-d) 1000000000 := Int.tdiv_nonneg hd (by decide)
  have h2 : 0 ≤ Int.tmod (-d) 1000000000 := Int.tmod_nonneg _ hd
  have h3 : Int.tdiv (-d) 1000000000 = -Int.tdiv d 1000000000 := Int.neg_tdiv d 1000000000
  have h4 : Int.tmod (-d) 1000000000 = -d - 1000000000 * Int.tdiv (-d) 1000000000 :=
    Int.tmod_def (-d) 1000000000
  have h5 : Int.tmod d 1000000000 = d - 1000000000 * Int.tdiv d 1000000000 :=
    Int.tmod_def d 1000000000
  generalize Int.tdiv d 1000000000 = q at h3 h5 ⊢
  generalize Int.tmod d 1000000000 = r at h5 ⊢
  generalize Int.tdiv (-d) 1000000000 = q2 at h1 h3 h4
  generalize Int.tmod (-d) 1000000000 = r2 at h2 h4
  constructor <;> omega

theorem f64OfInt_nonneg (n : Int) (h : 0 ≤ n) : 0 ≤ f64OfInt n :=
  roundFloat64_nonneg _ (by exact_mod_cast h)

theorem f64OfInt_nonpos (n : Int) (h : n ≤ 0) : f64OfInt n ≤ 0 :=
  roundFloat64_nonpos _ (by exact_mod_cast h)

theorem one_le_f64OfInt (n : Int) (h : 1 ≤ n) : 1 ≤ f64OfInt n :=
  one_le_roundFloat64 _ (by exact_mod_cast h)

theorem f64OfInt_zero : f64OfInt 0 = 0 := by
  simpa [f64OfInt] using roundFloat64_zero

/-- The guard `totalDuration.Seconds() > 0` of `Summarize` holds exactly for a
positive duration. -/
theorem seconds_pos_iff (d : Duration) : 0 < Seconds d ↔ 0 < d := by
  constructor
  · intro hpos
    by_contra hd
    obtain ⟨h1, h2⟩ := tdiv_tmod_second_of_nonpos d (not_lt.mp hd)
    have hA := f64OfInt_nonpos _ h1
    have hB : f64Div (f64OfInt (Int.tmod d Second)) 1000000000 ≤ 0 :=
      roundFloat64_nonpos _ (div_nonpos_of_nonpos_of_nonneg (f64OfInt_nonpos _ h2) (by norm_num))
    have : Seconds d ≤ 0 := roundFloat64_nonpos _ (by linarith)
    linarith
  · intro hd
    obtain ⟨h1, h2, h3⟩ := tdiv_tmod_second_of_pos d hd
    have hB : 0 ≤ f64Div (f64OfInt (Int.tmod d Second)) 1000000000 :=
      roundFloat64_nonneg _ (div_nonneg (f64OfInt_nonneg _ h2) (by norm_num))
    rcases h3 with hs | ⟨hs, hr⟩
    · have hA := one_le_f64OfInt _ hs
      have : 1 ≤ Seconds d := one_le_roundFloat64 _ (by linarith)
      linarith
    · have hN := one_le_f64OfInt _ hr
      have hq : (2 : ℚ) ^ (-30 : Int) ≤ f64OfInt (Int.tmod d Second) / 1000000000 := by
        rw [le_div_iff₀ (by norm_num)]
        have : (2 : ℚ) ^ (-30 : Int) * 1000000000 ≤ 1 := by norm_num
        linarith
      have hB2 : (2 : ℚ) ^ (-30 : Int) ≤ f64Div (f64OfInt (Int.tmod d Second)) 1000000000 :=
        two_zpow_le_roundFloat64 _ _ (by norm_num) hq
      have hsum : (2 : ℚ) ^ (-30 : Int)
          ≤ f64OfInt (Int.tdiv d Second) + f64Div (f64OfInt (Int.tmod d Second)) 1000000000 := by
        rw [hs, f64OfInt_zero, zero_add]
        exact hB2
      have : (2 : ℚ) ^ (-30 : Int) ≤ Seconds d := two_zpow_le_roundFloat64 _ _ (by norm_num) hsum
      have hp : (0 : ℚ) < (2 : ℚ) ^ (-30 : Int) := by positivity
      linarith

/-! ## Sequences of record calls -/

theorem recordAll_successCount (calls : List RecordCall) (c : Collector) :
    (c.recordAll calls).successCount = c.successCount + successCalls calls := by
  induction calls generalizing c with
  | nil => simp [Collector.recordAll, successCalls]
  | cons call rest ih =>
    cases call with
    | success l =>
      simp only [Collector.recordAll, ih, Collector.record, Collector.RecordSuccess, successCalls,
        List.countP_cons, RecordCall.isSuccess]
      push_cast
      ring
    | failure l =>
      simp [Collector.recordAll, ih, Collector.record, Collector.RecordFailure, successCalls,
        List.countP_cons, RecordCall.isSuccess]

theorem recordAll_errorCount (calls : List RecordCall) (c : Collector) :
    (c.recordAll calls).errorCount = c.errorCount + failureCalls calls := by
  induction calls generalizing c with
  | nil => simp [Collector.recordAll, failureCalls]
  | cons call rest ih =>
    cases call with
    | success l =>
      simp [Collector.recordAll, ih, Collector.record, Collector.RecordSuccess, failureCalls,
        List.countP_cons, RecordCall.isSuccess]
    | failure l =>
      simp only [Collector.recordAll, ih, Collector.record, Collector.RecordFailure, failureCalls,
        List.countP_cons, RecordCall.isSuccess]
      simp
      ring

theorem recordAll_totalLatencySuccess (calls : List RecordCall) (c : Collector)
    (hc : wrapInt64 c.totalLatencySuccess = c.totalLatencySuccess) :
    (c.recordAll calls).totalLatencySuccess
      = wrapInt64 (c.totalLatencySuccess + successLatencySum calls) := by
  induction calls generalizing c with
  | nil => simp [Collector.recordAll, successLatencySum, hc]
  | cons call rest ih =>
    cases call with
    | success l =>
      have h := ih (c.RecordSuccess l) (by
        simp only [Collector.RecordSuccess]
        have := wrapInt64_add_wrapInt64 (c.totalLatencySuccess + l) 0
        simpa using this)
      simp only [Collector.recordAll, Collector.record, h, successLatencySum]
      simp only [Collector.RecordSuccess, wrapInt64_add_wrapInt64]
      rw [add_assoc]
    | failure l =>
      have h := ih (c.RecordFailure l) (by simpa [Collector.RecordFailure] using hc)
      simp only [Collector.recordAll, Collector.record, h, successLatencySum]
      simp [Collector.RecordFailure]

theorem fresh_successCount (calls : List RecordCall) :
    (NewCollector.recordAll calls).successCount = (successCalls calls : Int) := by
  rw [recordAll_successCount]
  simp [NewCollector]

theorem fresh_errorCount (calls : List RecordCall) :
    (NewCollector.recordAll calls).errorCount = (failureCalls calls : Int) := by
  rw [recordAll_errorCount]
  simp [NewCollector]

theorem fresh_totalLatencySuccess (calls : List RecordCall) :
    (NewCollector.recordAll calls).totalLatencySuccess
      = wrapInt64 (successLatencySum calls) := by
  rw [recordAll_totalLatencySuccess calls NewCollector (by decide)]
  simp [NewCollector]

theorem successLatencySum_nonneg (calls : List RecordCall)
    (h : ∀ call ∈ calls, 0 ≤ call.latency) : 0 ≤ successLatencySum calls := by
  induction calls with
  | nil => simp [successLatencySum]
  | cons call rest ih =>
    have hrest := ih (fun x hx => h x (List.mem_cons_of_mem _ hx))
    have hcall := h call (List.mem_cons_self _ _)
    cases call with
    | success l =>
      have hl : (0 : Int) ≤ l := hcall
      simp only [successLatencySum]
      omega
    | failure l => simpa [successLatencySum] using hrest

/-! ## Values that are `float64` exactly -/

theorem roundFloat64_one : roundFloat64 1 = 1 := by
  have := roundFloat64_intCast 1 (by decide)
  simpa using this

theorem roundFloat64_hundred : roundFloat64 100 = 100 := by
  have := roundFloat64_intCast 100 (by decide)
  simpa using this

theorem f64OfInt_of_small (n : Int) (h : |n| < 2 ^ 53) : f64OfInt n = (n : ℚ) :=
  roundFloat64_intCast n h

theorem f64Div_zero_left (y : ℚ) : f64Div 0 y = 0 := by
  simp [f64Div, roundFloat64_zero]

theorem summarize_newCollector (d : Duration) :
    NewCollector.Summarize d
      = { TotalRequests := 0, SuccessCount := 0, ErrorCount := 0, TotalDuration := d,
          Throughput := 0, AvgLatencySuccessMs := 0, ErrorRatePercent := 0 } := by
  simp [Collector.Summarize, NewCollector, f64OfInt_zero, f64Div_zero_left]

/-- The value `Summarize` gives to `Throughput`, for every state of the model:
the guard on `Seconds()` is the guard `d > 0`. -/
theorem throughput_eq (c : Collector) (d : Duration) :
    (c.Summarize d).Throughput
      = if 0 < d then f64Div (f64OfInt (c.successCount + c.errorCount)) (Seconds d) else 0 := by
  simp only [Collector.Summarize, gt_iff_lt, seconds_pos_iff]

/-! ## Properties of the collector -/

/-- C1: after any finite sequence of RecordSuccess and RecordFailure calls on a
fresh collector, with N successes and M failures in any order and with any
latencies, TotalRequests returns N + M and Summarize reports SuccessCount = N,
ErrorCount = M and TotalRequests = N + M, for every duration. -/
theorem recordAll_counts (calls : List RecordCall) (d : Duration) :
    (NewCollector.recordAll calls).TotalRequests
        = (successCalls calls : Int) + (failureCalls calls : Int)
      ∧ ((NewCollector.recordAll calls).Summarize d).SuccessCount = (successCalls calls : Int)
      ∧ ((NewCollector.recordAll calls).Summarize d).ErrorCount = (failureCalls calls : Int)
      ∧ ((NewCollector.recordAll calls).Summarize d).TotalRequests
        = (successCalls calls : Int) + (failureCalls calls : Int) := by
  have hs := fresh_successCount calls
  have he := fresh_errorCount calls
  refine ⟨?_, ?_, ?_, ?_⟩
  · simp only [Collector.TotalRequests, hs, he]
  · simp only [Collector.Summarize, hs]
  · simp only [Collector.Summarize, he]
  · simp only [Collector.Summarize, hs, he]

/-- C3 fails as stated, for two reasons. One success of 1.5 ms has the latency
sum 3/2 when expressed in milliseconds, but the total is truncated to whole
milliseconds and Summarize reports 1. Two successes of 2^62 ns each (sum 2^63
ns, that is 9223372036854 whole milliseconds) wrap the int64 total to -2^63 and
Summarize reports the negative average -4611686018427. All latencies are
non-negative in both. -/
theorem avgLatencySuccessMs_counterexample :
    ((∀ call ∈ subMillisecondCalls, 0 ≤ call.latency)
        ∧ successCalls subMillisecondCalls = 1
        ∧ (successLatencySum subMillisecondCalls : ℚ) / 1000000 = 3 / 2
        ∧ ((NewCollector.recordAll subMillisecondCalls).Summarize 1000000000).AvgLatencySuccessMs
            = 1)
      ∧ ((∀ call ∈ overflowingCalls, 0 ≤ call.latency)
        ∧ successCalls overflowingCalls = 2
        ∧ Milliseconds (successLatencySum overflowingCalls) = 9223372036854
        ∧ ((NewCollector.recordAll overflowingCalls).Summarize 1000000000).AvgLatencySuccessMs
            = -4611686018427) := by
  have htotA : (NewCollector.recordAll subMillisecondCalls).totalLatencySuccess = 1500000 := by
    decide
  have hcntA : (NewCollector.recordAll subMillisecondCalls).successCount = 1 := by decide
  have hmsA : Milliseconds 1500000 = 1 := by decide
  have htotB : (NewCollector.recordAll overflowingCalls).totalLatencySuccess = -2 ^ 63 := by
    decide
  have hcntB : (NewCollector.recordAll overflowingCalls).successCount = 2 := by decide
  have hmsB : Milliseconds (-2 ^ 63) = -9223372036854 := by decide
  have hquot : roundFloat64 (((-9223372036854 : Int) : ℚ) / ((2 : Int) : ℚ))
      = ((-4611686018427 : Int) : ℚ) := by
    rw [show ((-9223372036854 : Int) : ℚ) / ((2 : Int) : ℚ) = ((-4611686018427 : Int) : ℚ) by
      norm_num]
    exact roundFloat64_intCast _ (by decide)
  refine ⟨⟨by decide, by decide, ?_, ?_⟩, ⟨by decide, by decide, by decide, ?_⟩⟩
  · have : successLatencySum subMillisecondCalls = 1500000 := by decide
    rw [this]
    norm_num
  · simp only [Collector.Summarize, htotA, hcntA, hmsA]
    rw [if_pos (by decide), f64OfInt_of_small 1 (by decide)]
    unfold f64Div
    simpa using roundFloat64_one
  · simp only [Collector.Summarize, htotB, hcntB, hmsB]
    rw [if_pos (by decide), f64OfInt_of_small _ (by decide), f64OfInt_of_small 2 (by decide)]
    unfold f64Div
    rw [hquot]
    norm_num

/-- C3 (amended): for every sequence of record calls on a fresh collector with
non-negative latencies whose success latencies sum to less than 2^63
nanoseconds, and for every duration, AvgLatencySuccessMs is the sum of the
latencies passed to RecordSuccess, truncated to whole milliseconds as
Duration.Milliseconds does, divided in float64 by the number of RecordSuccess
calls when there is at least one, and 0 when there is none. -/
theorem avgLatencySuccessMs_of_fits (calls : List RecordCall) (d : Duration)
    (hnonneg : ∀ call ∈ calls, 0 ≤ call.latency)
    (hfits : successLatencySum calls < 2 ^ 63) :
    ((NewCollector.recordAll calls).Summarize d).AvgLatencySuccessMs
      = if 0 < successCalls calls then
          f64Div (f64OfInt (Milliseconds (successLatencySum calls)))
            (f64OfInt (successCalls calls : Int))
        else 0 := by
  have h0 := successLatencySum_nonneg calls hnonneg
  simp only [Collector.Summarize, fresh_successCount, fresh_totalLatencySuccess]
  rw [wrapInt64_of_fits _ (by omega) hfits]
  by_cases hN : 0 < successCalls calls
  · have hN2 : (0 : Int) < (successCalls calls : Int) := by exact_mod_cast hN
    simp [hN, hN2]
  · have hN2 : ¬ (0 : Int) < (successCalls calls : Int) := by exact_mod_cast hN
    simp [hN, hN2]

/-- Witness for C3 as amended: successes of 1 ms, 1 ms and 2 ms and one failure
of 100 ms. -/
theorem avgLatencySuccessMs_of_fits_witness :
    ((NewCollector.recordAll
        [RecordCall.success 1000000, RecordCall.success 1000000, RecordCall.failure 100000000,
          RecordCall.success 2000000]).Summarize 1000000000).AvgLatencySuccessMs
      = if 0 < successCalls
            [RecordCall.success 1000000, RecordCall.success 1000000,
              RecordCall.failure 100000000, RecordCall.success 2000000] then
          f64Div (f64OfInt (Milliseconds (successLatencySum
            [RecordCall.success 1000000, RecordCall.success 1000000,
              RecordCall.failure 100000000, RecordCall.success 2000000])))
            (f64OfInt (successCalls
              [RecordCall.success 1000000, RecordCall.success 1000000,
                RecordCall.failure 100000000, RecordCall.success 2000000] : Int))
        else 0 :=
  avgLatencySuccessMs_of_fits _ 1000000000 (by decide) (by decide)

/-- C4: for every state a collector reaches, that is a fresh collector after
any sequence of record calls, and every duration d, the Throughput of the
summary is the float64 quotient of successCount + errorCount by d in seconds
(Duration.Seconds) when d > 0 and is 0 when d <= 0, and its TotalDuration is
d. -/
theorem summarize_throughput (calls : List RecordCall) (d : Duration) :
    ((NewCollector.recordAll calls).Summarize d).Throughput
        = (if 0 < d then
            f64Div
              (f64OfInt ((NewCollector.recordAll calls).successCount
                + (NewCollector.recordAll calls).errorCount))
              (Seconds d)
          else 0)
      ∧ (NewCollector.recordAll calls).successCount
          + (NewCollector.recordAll calls).errorCount
        = (successCalls calls : Int) + (failureCalls calls : Int)
      ∧ ((NewCollector.recordAll calls).Summarize d).TotalDuration = d := by
  refine ⟨throughput_eq _ d, ?_, rfl⟩
  rw [fresh_successCount, fresh_errorCount]

/-- C5: after a non-empty sequence of RecordFailure calls only (any latencies)
on a fresh collector, Summarize returns, for every duration,
AvgLatencySuccessMs = 0, ErrorRatePercent = 100, SuccessCount = 0 and
ErrorCount = TotalRequests (the number of calls). -/
theorem summarize_only_failures (latencies : List Duration) (d : Duration)
    (hne : latencies ≠ []) :
    ((NewCollector.recordAll (latencies.map RecordCall.failure)).Summarize d).AvgLatencySuccessMs
        = 0
      ∧ ((NewCollector.recordAll (latencies.map RecordCall.failure)).Summarize d).ErrorRatePercent
        = 100
      ∧ ((NewCollector.recordAll (latencies.map RecordCall.failure)).Summarize d).SuccessCount = 0
      ∧ ((NewCollector.recordAll (latencies.map RecordCall.failure)).Summarize d).ErrorCount
        = ((NewCollector.recordAll (latencies.map RecordCall.failure)).Summarize d).TotalRequests
      ∧ ((NewCollector.recordAll (latencies.map RecordCall.failure)).Summarize d).TotalRequests
        = (latencies.length : Int) := by
  have hS : successCalls (latencies.map RecordCall.failure) = 0 := by
    simp [successCalls, List.countP_eq_zero, RecordCall.isSuccess]
  have hF : failureCalls (latencies.map RecordCall.failure) = latencies.length := by
    simp [failureCalls, List.countP_eq_length, RecordCall.isSuccess]
  have hlen : 0 < latencies.length := List.length_pos.mpr hne
  have hlenZ : (0 : Int) < (latencies.length : Int) := by exact_mod_cast hlen
  have hlenQ : ((latencies.length : Int) : ℚ) ≠ 0 := by
    have : (0 : ℚ) < ((latencies.length : Int) : ℚ) := by exact_mod_cast hlen
    exact ne_of_gt this
  simp only [Collector.Summarize, fresh_successCount, fresh_errorCount, hS, hF]
  refine ⟨by simp, ?_, by simp, by simp, by simp⟩
  simp only [Nat.cast_zero, zero_add, gt_iff_lt, hlenZ, if_true]
  have hone : (1 : Int) ≤ (latencies.length : Int) := by omega
  have hne0 : f64OfInt (latencies.length : Int) ≠ 0 :=
    ne_of_gt (lt_of_lt_of_le one_pos (one_le_f64OfInt _ hone))
  unfold f64Mul f64Div
  rw [div_self hne0, roundFloat64_one, one_mul, roundFloat64_hundred]

/-- Witness for C5: failures of 100 ms and 200 ms,
summarised over one second. -/
theorem summarize_only_failures_witness :
    ((NewCollector.recordAll
        ([100000000, 200000000].map RecordCall.failure)).Summarize 1000000000).AvgLatencySuccessMs
        = 0
      ∧ ((NewCollector.recordAll
        ([100000000, 200000000].map RecordCall.failure)).Summarize 1000000000).ErrorRatePercent
        = 100
      ∧ ((NewCollector.recordAll
        ([100000000, 200000000].map RecordCall.failure)).Summarize 1000000000).SuccessCount = 0
      ∧ ((NewCollector.recordAll
        ([100000000, 200000000].map RecordCall.failure)).Summarize 1000000000).ErrorCount
        = ((NewCollector.recordAll
        ([100000000, 200000000].map RecordCall.failure)).Summarize 1000000000).TotalRequests
      ∧ ((NewCollector.recordAll
        ([100000000, 200000000].map RecordCall.failure)).Summarize 1000000000).TotalRequests
        = (([100000000, 200000000] : List Duration).length : Int) :=
  summarize_only_failures [100000000, 200000000] 1000000000 (by decide)

/-- C6: for every duration d, positive, zero or negative, Summarize on a fresh
collector returns all counts and all three derived values equal to 0; the two
divisions guarded by successCount > 0 and totalRequests > 0 are not executed,
and the throughput division is executed only with a non-zero divisor. -/
theorem summarize_fresh (d : Duration) :
    NewCollector.Summarize d
        = { TotalRequests := 0, SuccessCount := 0, ErrorCount := 0, TotalDuration := d,
            Throughput := 0, AvgLatencySuccessMs := 0, ErrorRatePercent := 0 }
      ∧ ¬ (NewCollector.successCount > 0)
      ∧ ¬ (NewCollector.successCount + NewCollector.errorCount > 0)
      ∧ (if Seconds d > 0 then Seconds d ≠ 0 else True) := by
  refine ⟨summarize_newCollector d, by decide, by decide, ?_⟩
  · split
    · rename_i h; exact ne_of_gt h
    · trivial

/-! ## Properties of the worker loop -/

theorem recordOutcome_call (it : Iteration) (s : Shared) :
    ∃ call : RecordCall,
      (recordOutcome it s).calls = s.calls ++ [call]
        ∧ (recordOutcome it s).mc = s.mc.record call
        ∧ call.latency = it.latency
        ∧ (call.isSuccess = true
            ↔ it.err = false ∧ 200 ≤ it.statusCode ∧ it.statusCode < 400) := by
  unfold recordOutcome
  by_cases herr : it.err = true
  · refine ⟨RecordCall.failure it.latency, ?_⟩
    simp [herr, Shared.RecordFailure, Collector.record, RecordCall.latency, RecordCall.isSuccess]
  · by_cases hs : it.statusCode ≥ 200 ∧ it.statusCode < 400
    · refine ⟨RecordCall.success it.latency, ?_⟩
      simp only [herr, hs, Shared.RecordSuccess, Collector.record, RecordCall.latency,
        RecordCall.isSuccess]
      simp at herr
      simp [herr, hs.1, hs.2]
    · refine ⟨RecordCall.failure it.latency, ?_⟩
      have herr2 : it.err = false := by simpa using herr
      simp only [herr, hs, Shared.RecordFailure, Collector.record, RecordCall.latency,
        RecordCall.isSuccess]
      refine ⟨by simp, by simp, trivial, ?_⟩
      constructor
      · intro h; cases h
      · intro h; exact h.2.elim

theorem workerLoop_returned (its : List Iteration) (w : Worker) (s : Shared)
    (h : w.returned = true) : workerLoop its w s = (w, s) := by
  induction its with
  | nil => rfl
  | cons it rest ih => simp [workerLoop, workerIteration, h, ih]

theorem workerLoop_trace (its : List Iteration) (w : Worker) (s : Shared)
    (h : w.returned = false) :
    (workerLoop its w s).1.checks = w.checks ++ (iterationsRun its).map (fun it => it.fired)
      ∧ (workerLoop its w s).1.requests
          = w.requests + ((iterationsRun its).filter (fun it => !it.fired)).length
      ∧ (workerLoop its w s).2.calls.length
          = s.calls.length + ((iterationsRun its).filter (fun it => !it.fired)).length
      ∧ ((workerLoop its w s).1.returned = true ↔ ∃ it ∈ its, it.fired = true) := by
  induction its generalizing w s with
  | nil => simp [workerLoop, iterationsRun, h]
  | cons it rest ih =>
    by_cases hf : it.fired = true
    · have hstep : workerIteration it w s
          = ({ w with returned := true, checks := w.checks ++ [true] }, s) := by
        simp [workerIteration, h, hf]
      simp only [workerLoop, hstep]
      rw [workerLoop_returned rest _ s rfl]
      simp [iterationsRun, hf]
    · have hf2 : it.fired = false := by simpa using hf
      have hstep : workerIteration it w s
          = ({ w with requests := w.requests + 1, checks := w.checks ++ [false] },
              recordOutcome it s) := by
        simp [workerIteration, h, hf2]
      obtain ⟨call, hcall, -, -, -⟩ := recordOutcome_call it s
      have ih2 := ih { w with requests := w.requests + 1, checks := w.checks ++ [false] }
        (recordOutcome it s) h
      simp only [workerLoop, hstep]
      obtain ⟨i1, i2, i3, i4⟩ := ih2
      refine ⟨?_, ?_, ?_, ?_⟩
      · rw [i1]; simp [iterationsRun, hf2]
      · rw [i2]; simp [iterationsRun, hf2]; omega
      · rw [i3, hcall]; simp [iterationsRun, hf2]; omega
      · rw [i4]; simp [hf2]

/-- C2: in a pass of a worker that issues a request, exactly one record call is
made on the collector, with the measured latency; it is RecordSuccess exactly
when the client returned no error and the status code s satisfies
200 <= s < 400, and RecordFailure otherwise, whatever the response holds when
the client returned an error. So 200 and 399 are successes, 199 and 400 are
failures. -/
theorem workerIteration_records_once (it : Iteration) (w : Worker) (s : Shared)
    (hrun : w.returned = false) (hlive : it.fired = false) :
    (workerIteration it w s).1.requests = w.requests + 1
      ∧ (∃ call : RecordCall,
          (workerIteration it w s).2.calls = s.calls ++ [call]
            ∧ (workerIteration it w s).2.mc = s.mc.record call
            ∧ call.latency = it.latency
            ∧ (call.isSuccess = true
                ↔ it.err = false ∧ 200 ≤ it.statusCode ∧ it.statusCode < 400))
      ∧ (it.err = true →
          (workerIteration it w s).2
            = { mc := s.mc.RecordFailure it.latency,
                calls := s.calls ++ [RecordCall.failure it.latency] })
      ∧ (it.err = false → (it.statusCode = 200 ∨ it.statusCode = 399) →
          (workerIteration it w s).2
            = { mc := s.mc.RecordSuccess it.latency,
                calls := s.calls ++ [RecordCall.success it.latency] })
      ∧ (it.err = false → (it.statusCode = 199 ∨ it.statusCode = 400) →
          (workerIteration it w s).2
            = { mc := s.mc.RecordFailure it.latency,
                calls := s.calls ++ [RecordCall.failure it.latency] }) := by
  have hstep : workerIteration it w s
      = ({ w with requests := w.requests + 1, checks := w.checks ++ [false] },
          recordOutcome it s) := by
    simp [workerIteration, hrun, hlive]
  rw [hstep]
  refine ⟨rfl, recordOutcome_call it s, ?_, ?_, ?_⟩
  · intro herr
    simp [recordOutcome, herr, Shared.RecordFailure]
  · intro herr hs
    rcases hs with hs | hs <;> simp [recordOutcome, herr, hs, Shared.RecordSuccess]
  · intro herr hs
    rcases hs with hs | hs <;> simp [recordOutcome, herr, hs, Shared.RecordFailure]

/-- Witness for C2: a response with status 399 and
a latency of 5 ms, on a freshly launched worker and a fresh collector. -/
theorem workerIteration_records_once_witness :
    (workerIteration { fired := false, err := false, statusCode := 399, latency := 5000000 }
        Worker.launched { mc := NewCollector, calls := [] }).2
      = { mc := NewCollector.RecordSuccess 5000000, calls := [RecordCall.success 5000000] } :=
  (workerIteration_records_once
    { fired := false, err := false, statusCode := 399, latency := 5000000 }
    Worker.launched { mc := NewCollector, calls := [] } rfl rfl).2.2.2.1 rfl (Or.inr rfl)

/-- C10: a pass of a worker whose deadline check finds the signal fired issues
no request and makes no record call, and the worker has returned after it; a
worker that has returned issues no request and makes no record call whatever
happens next; and over every run of a freshly launched worker the number of
requests issued, which is also the number of record calls made, equals the
number of passes whose check found the signal not fired. -/
theorem workerLoop_requests (its : List Iteration) (s : Shared) :
    (∀ (it : Iteration) (w : Worker) (s0 : Shared), it.fired = true →
        (workerIteration it w s0).1.returned = true
          ∧ (workerIteration it w s0).1.requests = w.requests
          ∧ (workerIteration it w s0).2 = s0)
      ∧ (∀ (more : List Iteration) (w : Worker) (s0 : Shared), w.returned = true →
          workerLoop more w s0 = (w, s0))
      ∧ (workerLoop its Worker.launched s).1.checks = (iterationsRun its).map (fun it => it.fired)
      ∧ (workerLoop its Worker.launched s).1.requests
          = ((workerLoop its Worker.launched s).1.checks.filter (fun fired => !fired)).length
      ∧ (workerLoop its Worker.launched s).2.calls.length
          = s.calls.length + (workerLoop its Worker.launched s).1.requests := by
  obtain ⟨h1, h2, h3, -⟩ := workerLoop_trace its Worker.launched s rfl
  refine ⟨?_, fun more w s0 h => workerLoop_returned more w s0 h, ?_, ?_, ?_⟩
  · intro it w s0 hf
    by_cases hr : w.returned = true
    · simp [workerIteration, hr]
    · simp [workerIteration, hr, hf]
  · simpa [Worker.launched] using h1
  · rw [h2, h1]
    simp [Worker.launched, List.filter_map, Function.comp_def]
  · rw [h3, h2]
    simp [Worker.launched]

/-! ## Properties of `RunLoadTest` and of the command -/

theorem wrapInt32_of_fits (x : Int) (hlo : -2 ^ 31 ≤ x) (hhi : x < 2 ^ 31) :
    wrapInt32 x = x := by
  unfold wrapInt32
  rw [Int.emod_eq_of_lt (by omega) (by omega)]
  omega

theorem wgAdd_of_fits (counter delta : Int) (hlo : 0 ≤ counter + delta)
    (hhi : counter + delta < 2 ^ 31) : wgAdd counter delta = some (counter + delta) := by
  unfold wgAdd
  rw [wrapInt32_of_fits _ (by omega) hhi]
  simp only [if_neg (not_lt.mpr hlo)]

theorem wgDoneTimes_of_le (n : Nat) (counter : Int) (hle : (n : Int) ≤ counter)
    (hhi : counter < 2 ^ 31) : wgDoneTimes n counter = some (counter - n) := by
  induction n generalizing counter with
  | zero => simp [wgDoneTimes]
  | succ k ih =>
    have hstep : wgAdd counter (-1) = some (counter + -1) :=
      wgAdd_of_fits counter (-1) (by push_cast at hle; omega) (by omega)
    simp only [wgDoneTimes, hstep]
    rw [ih (counter + -1) (by push_cast at hle; omega) (by omega)]
    congr 1
    push_cast
    omega

/-- C7 fails as stated: with a URL that fails URI parsing and the positive
Concurrency 2^31, the int32 counter of the wait group is negative after
wg.Add(opts.Concurrency), which panics: RunLoadTest does not return. No worker
is launched and no record call is made. -/
theorem RunLoadTest_invalid_url_counterexample :
    rejectsUnclosedHost hugeOptions.URL = true
      ∧ 0 < hugeOptions.Concurrency
      ∧ RunLoadTest rejectsUnclosedHost hugeOptions [] NewCollector
          = RunResult.panicked
              { shared := { mc := NewCollector, calls := [] }, workers := [], output := [],
                wg := 0 } := by
  decide

/-- C7 (amended): for every Options whose URL fails URI parsing, with any
positive Concurrency below 2^31 and any Duration, and for every collector state
and every schedule, RunLoadTest returns having launched no worker, issued no
request and made no record call: the collector is the same after the call as
before it, and the only effect is the error line printed. -/
theorem RunLoadTest_invalid_url (parseFails : String → Bool) (opts : Options)
    (schedule : List (Nat × Iteration)) (mc : Collector)
    (hbad : parseFails opts.URL = true) (hpos : 0 < opts.Concurrency)
    (hsmall : opts.Concurrency < 2 ^ 31) :
    RunLoadTest parseFails opts schedule mc
        = RunResult.returned
            { shared := { mc := mc, calls := [] }, workers := [],
              output := [Output.invalidURL opts.URL], wg := 0 }
      ∧ (RunLoadTest parseFails opts schedule mc).collector = mc := by
  have hadd : wgAdd 0 opts.Concurrency = some opts.Concurrency := by
    have := wgAdd_of_fits 0 opts.Concurrency (by omega) (by omega)
    simpa using this
  have hdone : wgDoneTimes opts.Concurrency.toNat opts.Concurrency = some 0 := by
    rw [wgDoneTimes_of_le _ _ (by omega) hsmall]
    congr 1
    omega
  have h : RunLoadTest parseFails opts schedule mc
      = RunResult.returned
          { shared := { mc := mc, calls := [] }, workers := [],
            output := [Output.invalidURL opts.URL], wg := 0 } := by
    simp only [RunLoadTest, hadd, hbad, if_true, hdone]
  exact ⟨h, by rw [h]; rfl⟩

/-- Witness for C7 as amended: one worker asked for, the URL with the unclosed
IPv6 host literal, a schedule that would let worker 0 issue a request, and a
collector that already holds one success and one failure. -/
theorem RunLoadTest_invalid_url_witness :
    RunLoadTest rejectsUnclosedHost
        { URL := "http://[::1", Concurrency := 1, Duration := 50000000 }
        [(0, { fired := false, err := false, statusCode := 200, latency := 7 })]
        { successCount := 1, errorCount := 1, totalLatencySuccess := 5, totalLatencyError := 9 }
      = RunResult.returned
          { shared :=
              { mc := { successCount := 1, errorCount := 1, totalLatencySuccess := 5,
                        totalLatencyError := 9 },
                calls := [] },
            workers := [], output := [Output.invalidURL "http://[::1"], wg := 0 } :=
  (RunLoadTest_invalid_url rejectsUnclosedHost
    { URL := "http://[::1", Concurrency := 1, Duration := 50000000 }
    [(0, { fired := false, err := false, statusCode := 200, latency := 7 })]
    { successCount := 1, errorCount := 1, totalLatencySuccess := 5, totalLatencyError := 9 }
    (by decide) (by decide) (by decide)).1

/-- The three validation paths of `Run`: an empty URL, a concurrency <= 0 or a
duration <= 0 is reported, nothing is started, no metrics are printed and the
process exits with code 1. -/
theorem Run_basic_validation (flags : Flags) (env : Env)
    (h : flags.targetURL = "" ∨ flags.concurrency ≤ 0 ∨ flags.duration ≤ 0) :
    (Run flags env).exit = Exit.code 1
      ∧ (∃ o ∈ (Run flags env).output, o.isError = true)
      ∧ (∀ o ∈ (Run flags env).output, o.isMetrics = false)
      ∧ (Run flags env).reporterStarted = false
      ∧ (Run flags env).workersLaunched = 0
      ∧ (Run flags env).calls = [] := by
  by_cases h1 : flags.targetURL = ""
  · simp [Run, h1, Output.isError, Output.isMetrics]
  · by_cases h2 : flags.concurrency ≤ 0
    · simp [Run, h1, h2, Output.isError, Output.isMetrics]
    · by_cases h3 : flags.duration ≤ 0
      · simp [Run, h1, h2, h3, Output.isError, Output.isMetrics]
      · rcases h with h | h | h
        · exact absurd h h1
        · exact absurd h h2
        · exact absurd h h3

/-- C8, the code at the failing input: with the non-empty URL `http://[::1`,
which fails URI parsing, one worker asked for and a duration of 50 ms, the run
reports the error and launches no worker, but it goes on to print the final
summary, all zero, and the process exits with code 0; the claim asks for no
summary and a non-zero exit code, which is what the same Run does for an empty
URL, a zero concurrency and a zero duration. -/
theorem Run_malformed_url_exits_zero :
    (malformedFlags.targetURL ≠ ""
        ∧ malformedEnv.parseFails malformedFlags.targetURL = true
        ∧ (Run malformedFlags malformedEnv).exit = Exit.code 0
        ∧ (Run malformedFlags malformedEnv).output
            = [Output.starting "http://[::1" 1 50000000,
               Output.invalidURL "http://[::1",
               Output.finished,
               Output.summary
                 { TotalRequests := 0, SuccessCount := 0, ErrorCount := 0,
                   TotalDuration := 1000000, Throughput := 0, AvgLatencySuccessMs := 0,
                   ErrorRatePercent := 0 }]
        ∧ (Run malformedFlags malformedEnv).workersLaunched = 0)
      ∧ (Run { targetURL := "", concurrency := 1, duration := 50000000 } malformedEnv
            = { output := [Output.errEmptyURL, Output.usage], exit := Exit.code 1,
                reporterStarted := false, workersLaunched := 0, calls := [] }
        ∧ Run { targetURL := "http://[::1", concurrency := 0, duration := 50000000 } malformedEnv
            = { output := [Output.errConcurrency], exit := Exit.code 1,
                reporterStarted := false, workersLaunched := 0, calls := [] }
        ∧ Run { targetURL := "http://[::1", concurrency := 1, duration := 0 } malformedEnv
            = { output := [Output.errDuration], exit := Exit.code 1,
                reporterStarted := false, workersLaunched := 0, calls := [] }) := by
  have hrun : RunLoadTest rejectsUnclosedHost
      { URL := "http://[::1", Concurrency := 1, Duration := 50000000 } [] NewCollector
      = RunResult.returned
          { shared := { mc := NewCollector, calls := [] }, workers := [],
            output := [Output.invalidURL "http://[::1"], wg := 0 } := by
    decide
  have hout : (Run malformedFlags malformedEnv).output
      = [Output.starting "http://[::1" 1 50000000,
         Output.invalidURL "http://[::1",
         Output.finished,
         Output.summary
           { TotalRequests := 0, SuccessCount := 0, ErrorCount := 0,
             TotalDuration := 1000000, Throughput := 0, AvgLatencySuccessMs := 0,
             ErrorRatePercent := 0 }] := by
    simp [Run, malformedFlags, malformedEnv, hrun, summarize_newCollector]
  refine ⟨⟨by decide, by decide, by decide, hout, by decide⟩, ?_, ?_, ?_⟩
  · simp [Run]
  · simp [Run]
  · simp [Run]

end K8sLoadtester
